import Mathlib

/-!
# Verification of the nix-bitcoin-monitor collection framework

A shallow embedding of the collector framework of `nix-bitcoin-monitor`:
the frequency-aligned scheduler, the RPC acquisition step, the collector
loop's error handling, the simple-append and archive-mode CSV sinks, the
kernel-probe peer aggregation, and the systemd IP-accounting collector.

Conventions:
* Python wall-clock times (`time.time()` floats) are modelled as rationals.
* Python dicts used as CSV records are modelled as association lists
  (`List (String × String)`); lookup takes the first match, and the
  builders below never produce duplicate keys.
* Python exceptions are modelled by an explicit error type `PyErr`
  carried in `Except`.
-/

namespace BitcoinMonitor

/-! ## Scheduler (`BitcoinRPCBase.reschedule`, src/bitcoin_monitor/bitcoin/rpc/base.py)

```python
now = time.time() + 1  # avoid race condition where now % FREQUENCY == 0
last_scheduled = now - now % self.FREQUENCY
next_scheduled = last_scheduled + self.FREQUENCY
```
-/

/-- Python's `%` on floats with a positive divisor: `x % y = x - y * floor(x / y)`. -/
def pymod (x y : ℚ) : ℚ := x - y * ⌊x / y⌋

/-- The computation in `reschedule` of the next wake-up time: with `now = T + 1`,
`last_scheduled = now - now % F` and `next_scheduled = last_scheduled + F`. -/
def next_scheduled (F : ℕ) (T : ℚ) : ℚ :=
  let now : ℚ := T + 1
  let last_scheduled := now - pymod now F
  last_scheduled + F

theorem next_scheduled_eq (F : ℕ) (T : ℚ) :
    next_scheduled F T = (⌊(T + 1) / F⌋ + 1) * F := by
  unfold next_scheduled pymod
  push_cast
  ring

end BitcoinMonitor

namespace BitcoinMonitor

/-- C2: for every strictly positive cadence `F` (seconds) and every start time
`T`, the next wake-up time computed by `reschedule` is an integer multiple of
`F` and is strictly greater than `T`. -/
theorem reschedule_multiple_and_future (F : ℕ) (T : ℚ) (hF : 0 < F) :
    (∃ k : ℤ, next_scheduled F T = k * F) ∧ T < next_scheduled F T := by
  rw [next_scheduled_eq]
  refine ⟨⟨⌊(T + 1) / F⌋ + 1, by push_cast; ring⟩, ?_⟩
  have hF' : (0 : ℚ) < F := by exact_mod_cast hF
  have h1 : (T + 1) / F < (⌊(T + 1) / F⌋ + 1 : ℤ) := by
    push_cast
    exact Int.lt_floor_add_one _
  have h2 : T + 1 < (⌊(T + 1) / F⌋ + 1 : ℤ) * F := by
    have := (div_lt_iff₀ hF').mp h1
    exact this
  push_cast at h2
  linarith

/-- Witness for C2 at `F = 5`, `T = 0`. -/
theorem reschedule_multiple_and_future_witness :
    (∃ k : ℤ, next_scheduled 5 0 = k * 5) ∧ (0 : ℚ) < next_scheduled 5 0 :=
  reschedule_multiple_and_future 5 0 (by decide)

/-- C3 counterexample: at `F = 5`, `T = 4` we have `T + ε = 5`, an exact
multiple of `F`; the claim predicts `ceil(5/5) * 5 = 5`, but the code computes
`10`. -/
theorem reschedule_not_ceil_on_boundary :
    next_scheduled 5 4 ≠ ((⌈((4 : ℚ) + 1) / 5⌉ : ℤ) : ℚ) * 5 := by
  rw [next_scheduled_eq]
  norm_num

/-- C3 (amended): for `F > 0`, the next wake-up time is
`(floor((T+1)/F) + 1) * F`.  This equals `ceil((T+1)/F) * F` whenever `T+1`
is not an exact multiple of `F`; when `T+1` is an exact multiple of `F`, the
code instead schedules one full period later, `(T+1) + F`. -/
theorem reschedule_ceil_characterization (F : ℕ) (T : ℚ) (hF : 0 < F) :
    (¬(∃ k : ℤ, T + 1 = k * F) →
      next_scheduled F T = ((⌈(T + 1) / F⌉ : ℤ) : ℚ) * F) ∧
    ((∃ k : ℤ, T + 1 = k * F) → next_scheduled F T = (T + 1) + F) := by
  have hF' : (0 : ℚ) < F := by exact_mod_cast hF
  constructor
  · intro hnot
    rw [next_scheduled_eq]
    have hceil : ⌈(T + 1) / F⌉ = ⌊(T + 1) / F⌋ + 1 := by
      rcases lt_or_eq_of_le (Int.floor_le_ceil ((T + 1) / F)) with h | h
      · have hle := Int.ceil_le_floor_add_one ((T + 1) / F)
        omega
      · exfalso
        apply hnot
        have hint : (T + 1) / F = ((⌊(T + 1) / F⌋ : ℤ) : ℚ) := by
          have h1 : (T + 1) / F ≤ ((⌊(T + 1) / F⌋ : ℤ) : ℚ) := by
            rw [h]; exact Int.le_ceil _
          have h2 : ((⌊(T + 1) / F⌋ : ℤ) : ℚ) ≤ (T + 1) / F := Int.floor_le _
          linarith
        exact ⟨⌊(T + 1) / F⌋, by
          field_simp at hint
          linarith⟩
    rw [hceil]
    push_cast
    ring
  · rintro ⟨k, hk⟩
    rw [next_scheduled_eq]
    have hfloor : ⌊(T + 1) / F⌋ = k := by
      rw [hk]
      rw [mul_div_assoc, div_self (ne_of_gt hF'), mul_one]
      exact Int.floor_intCast k
    rw [hfloor, hk]
    ring

/-- Witness for C3 (amended): at `F = 5`, `T = 3` (non-boundary) the result is
`ceil(4/5) * 5 = 5`; at `F = 5`, `T = 4` (boundary) the result is `5 + 5 = 10`. -/
theorem reschedule_ceil_characterization_witness :
    next_scheduled 5 3 = ((⌈((3 : ℚ) + 1) / 5⌉ : ℤ) : ℚ) * 5 ∧
    next_scheduled 5 4 = ((4 : ℚ) + 1) + 5 := by
  constructor
  · exact (reschedule_ceil_characterization 5 3 (by decide)).1 (by
      rintro ⟨k, hk⟩
      push_cast at hk
      have h4 : ((4 : ℤ) : ℚ) = ((k * 5 : ℤ) : ℚ) := by push_cast; linarith
      have : (4 : ℤ) = k * 5 := by exact_mod_cast h4
      omega)
  · exact (reschedule_ceil_characterization 5 4 (by decide)).2 ⟨1, by norm_num⟩

end BitcoinMonitor

namespace BitcoinMonitor

/-! ## Python exceptions and CSV records

The collector loop in `BitcoinRPCBase.run` catches exactly `ConnectionError`;
every other exception escapes the loop.  Python dicts holding one CSV row are
association lists; `csv.DictWriter` substitutes `""` (its default `restval`)
for fields missing from a row, and raises `ValueError` when a row holds a key
outside `fieldnames` (its default `extrasaction='raise'`).
-/

/-- The Python exceptions that the embedded code can raise. -/
inductive PyErr where
  | connectionError (msg : String)
  | keyError (key : String)
  | indexError
  | valueError (msg : String)
deriving DecidableEq, Repr

/-- The `except ConnectionError` handler in `BitcoinRPCBase.run`: only `ConnectionError`
is caught by the collector loop; anything else is fatal to the loop. -/
def caught_by_loop : PyErr → Bool
  | .connectionError _ => true
  | _ => false

/-- One CSV record (a Python dict from field name to scalar, both as strings). -/
def Obs : Type := List (String × String)

instance : DecidableEq Obs := by unfold Obs; infer_instance

/-- Python `d.get(k, "")`: dict lookup with the `DictWriter` default for a missing key. -/
def getD (d : Obs) (k : String) : String := (d.lookup k).getD ""

/-- One `DictWriter` row: values in `fieldnames` order, `""` for missing keys;
`ValueError` if the record holds a key outside `fieldnames`. -/
def dict_row (fieldnames : List String) (d : Obs) : Except PyErr (List String) :=
  if d.all (fun kv => fieldnames.contains kv.1) then
    .ok (fieldnames.map (getD d))
  else
    .error (.valueError "dict contains fields not in fieldnames")

/-- Model of `DictWriter.writerows`: each record in order. -/
def dict_rows (fieldnames : List String) : List Obs → Except PyErr (List (List String))
  | [] => .ok []
  | d :: rest => do
    let r ← dict_row fieldnames d
    let rs ← dict_rows fieldnames rest
    .ok (r :: rs)

/-! ## Simple-append sink (`BitcoinRPCBase.write_result`)

```python
file = Path(f"{self.results_path}/{self.CALL_NAME}.csv")
file_exists = file.exists()
with open(file, "a", newline="", encoding="UTF-8") as f:
    csv_writer = csv.DictWriter(f, fieldnames=["timestamp"] + self.CSV_FIELDS)
    if not file_exists:
        csv_writer.writeheader()
    csv_writer.writerows(data)
```

The collector's single output file is modelled as `Option (List (List String))`
(`none` = the file does not exist; otherwise the list of its CSV lines, each a
list of cells). -/

/-- The `BitcoinRPCBase.write_result` step for the file state `sink` and observation
list `data`, with `fields` standing for the class's `CSV_FIELDS`. -/
def write_result (fields : List String) (sink : Option (List (List String)))
    (data : List Obs) : Except PyErr (List (List String)) := do
  let fieldnames := "timestamp" :: fields
  let rows ← dict_rows fieldnames data
  match sink with
  | none => .ok (fieldnames :: rows)
  | some content => .ok (content ++ rows)

/-! ## RPC acquisition (`BitcoinRPCBase.rpc_call`)

```python
async with session.post(rpc_url, json=rpc_data) as response:
    if response.status == 200:
        result = await response.json()
    else:
        raise ConnectionError(
            f"unexpected RPC response: status={response.status}, reason={response.reason}"
        )
...
return result["result"]
```
-/

/-- An HTTP response from the node: status, reason, and the decoded JSON-RPC
envelope (an object, modelled as an association list over an abstract JSON
value type `α`). -/
structure RpcResponse (α : Type) where
  status : Nat
  reason : String
  envelope : List (String × α)
deriving DecidableEq, Repr

/-- The `BitcoinRPCBase.rpc_call` step on a given transport response: non-200 status
raises `ConnectionError`; on a 200 response, `result["result"]` returns that
field's value, or raises `KeyError` if the envelope lacks it. -/
def rpc_call {α : Type} (resp : RpcResponse α) : Except PyErr α :=
  if resp.status = 200 then
    match resp.envelope.lookup "result" with
    | some v => .ok v
    | none => .error (.keyError "result")
  else
    .error (.connectionError
      ("unexpected RPC response: status=" ++ toString resp.status
        ++ ", reason=" ++ resp.reason))

/-! ## Collector loop (`BitcoinRPCBase.run`)

```python
while True:
    call_time = ...
    try:
        call_result = await self.rpc_call()
        data = self.format_results(call_time, call_result)
        self.write_result(data)
    except ConnectionError as e:
        self.log.error(e)
    await self.reschedule()
```

Each iteration is driven by the outcome of that cycle's acquisition
(`rpc_call` either returns a value or raises); `fmt` stands for the
subclass's `format_results`.  The loop runs until the cycle list is
exhausted or a cycle raises an exception other than `ConnectionError`,
returning the final sink state and the escaped exception, if any. -/

/-- The outcome of one cycle's acquisition: a value, or a raised exception. -/
inductive AcqOutcome (α : Type) where
  | ok (v : α)
  | exc (e : PyErr)
deriving DecidableEq, Repr

/-- The collector loop of `BitcoinRPCBase.run`, one entry of `cycles` per
iteration (the cycle's `call_time` and its acquisition outcome). -/
def run_cycles {α : Type} (fields : List String) (fmt : String → α → List Obs) :
    List (String × AcqOutcome α) → Option (List (List String)) →
      Option (List (List String)) × Option PyErr
  | [], sink => (sink, none)
  | (t, out) :: rest, sink =>
    match out with
    | .ok v =>
      match write_result fields sink (fmt t v) with
      | .ok content => run_cycles fields fmt rest (some content)
      | .error e => (sink, some e)
    | .exc e =>
      if caught_by_loop e then run_cycles fields fmt rest sink
      else (sink, some e)

end BitcoinMonitor

namespace BitcoinMonitor

/-- C4: a cycle whose acquisition raises `ConnectionError` (the transient
I/O failure) does not terminate the collector loop: the loop continues with
the remaining cycles and the sink is unchanged for the failed cycle (no
output row); a cycle raising any exception not caught by the loop's
`except ConnectionError` handler terminates the loop immediately with that
exception and processes no further cycle. -/
theorem run_cycles_transient_continues {α : Type} (fields : List String)
    (fmt : String → α → List Obs) (t m : String) (e : PyErr)
    (rest : List (String × AcqOutcome α)) (sink : Option (List (List String))) :
    run_cycles fields fmt ((t, .exc (.connectionError m)) :: rest) sink =
      run_cycles fields fmt rest sink ∧
    (caught_by_loop e = false →
      run_cycles fields fmt ((t, .exc e) :: rest) sink = (sink, some e)) := by
  constructor
  · simp [run_cycles, caught_by_loop]
  · intro h
    simp [run_cycles, h]

/-- Witness for C4: one failing then one succeeding acquisition; the second
cycle still executes and writes its row, while a `KeyError` cycle escapes. -/
theorem run_cycles_transient_continues_witness :
    run_cycles ["dummy"] (fun t v => [[("timestamp", t), ("dummy", v)]])
        [("t1", .exc (.connectionError "refused"))] none = (none, none) ∧
    run_cycles ["dummy"] (fun t v => [[("timestamp", t), ("dummy", v)]])
        [("t2", .exc (.keyError "result"))] none =
      (none, some (.keyError "result")) := by
  constructor
  · exact (run_cycles_transient_continues ["dummy"]
      (fun t v => [[("timestamp", t), ("dummy", v)]]) "t1" "refused"
      (.keyError "result") [] none).1
  · exact (run_cycles_transient_continues ["dummy"]
      (fun t v => [[("timestamp", t), ("dummy", v)]]) "t2" "refused"
      (.keyError "result") [] none).2 (by decide)

/-- C5 counterexample: a success-status (200) response whose envelope lacks
the `result` field makes `rpc_call` raise `KeyError`, which the collector
loop's `except ConnectionError` handler does not catch — not the claimed
`TransientIOError` (`ConnectionError`). -/
theorem rpc_call_malformed_not_transient :
    rpc_call (α := Nat) ⟨200, "OK", []⟩ = .error (.keyError "result") ∧
    caught_by_loop (.keyError "result") = false := by
  constructor
  · rfl
  · rfl

/-- C5 (amended): a non-success status makes `rpc_call` raise
`ConnectionError` (the transient kind, caught by the collector loop); a
success status with a well-formed envelope returns the envelope's `result`
value; but a success status with an envelope lacking the `result` field
raises `KeyError`, a fatal kind that the collector loop does not catch. -/
theorem rpc_call_spec {α : Type} (resp : RpcResponse α) :
    (resp.status ≠ 200 →
      rpc_call resp = .error (.connectionError
        ("unexpected RPC response: status=" ++ toString resp.status
          ++ ", reason=" ++ resp.reason)) ∧
      caught_by_loop (.connectionError
        ("unexpected RPC response: status=" ++ toString resp.status
          ++ ", reason=" ++ resp.reason)) = true) ∧
    (∀ v : α, resp.status = 200 → resp.envelope.lookup "result" = some v →
      rpc_call resp = .ok v) ∧
    (resp.status = 200 → resp.envelope.lookup "result" = none →
      rpc_call resp = .error (.keyError "result") ∧
      caught_by_loop (.keyError "result") = false) := by
  refine ⟨fun h => ⟨?_, rfl⟩, fun v h hv => ?_, fun h hn => ⟨?_, rfl⟩⟩
  · simp [rpc_call, h]
  · simp [rpc_call, h, hv]
  · simp [rpc_call, h, hn]

/-- Witness for C5 (amended), discharging each hypothesis at a concrete
response: a 500 response, a well-formed 200 response with `result = 7`, and
a malformed 200 response with an empty envelope. -/
theorem rpc_call_spec_witness :
    (rpc_call (α := Nat) ⟨500, "ISE", []⟩ = .error (.connectionError
        ("unexpected RPC response: status=" ++ toString 500 ++ ", reason=" ++ "ISE")) ∧
      caught_by_loop (.connectionError
        ("unexpected RPC response: status=" ++ toString 500 ++ ", reason=" ++ "ISE")) = true) ∧
    rpc_call (α := Nat) ⟨200, "OK", [("result", 7)]⟩ = .ok 7 ∧
    (rpc_call (α := Nat) ⟨200, "OK", []⟩ = .error (.keyError "result") ∧
      caught_by_loop (.keyError "result") = false) := by
  refine ⟨(rpc_call_spec ⟨500, "ISE", []⟩).1 (by decide), ?_, ?_⟩
  · exact (rpc_call_spec ⟨200, "OK", [("result", 7)]⟩).2.1 7 rfl (by decide)
  · exact (rpc_call_spec (α := Nat) ⟨200, "OK", []⟩).2.2 rfl rfl

end BitcoinMonitor

namespace BitcoinMonitor

/-! ## Round-trip for the simple-append sink (C7) -/

/-- The whole lifetime of one collector's simple-append sink file: each
element of `batches` is one `write_result` call's observation list, applied
in order, starting from a non-existent file. -/
def write_all (fields : List String) (batches : List (List Obs)) :
    Except PyErr (Option (List (List String))) :=
  batches.foldlM (fun sink batch => (write_result fields sink batch).map some) none

/-- Re-reading one cell of the sink file: row `i` (0-based over the data
rows, after the header line) at the column the header assigns to `field`. -/
def read_cell (file : List (List String)) (i : Nat) (field : String) : String :=
  match file with
  | [] => ""
  | header :: rows => (((rows[i]?).getD [])[header.indexOf field]?).getD ""

/-- Expected sink-file contents after the whole write sequence: the header
line `["timestamp", ...fields]` first, then one line per written observation,
in write order. -/
def sink_file_spec (fields : List String) (batches : List (List Obs)) :
    List (List String) :=
  ("timestamp" :: fields) ::
    batches.flatten.map fun d => ("timestamp" :: fields).map (getD d)

theorem except_bind_ok {ε α β : Type} (a : α) (f : α → Except ε β) :
    ((Except.ok a : Except ε α) >>= f) = f a := rfl

theorem except_map_ok {ε α β : Type} (g : α → β) (a : α) :
    (Except.ok a : Except ε α).map g = Except.ok (g a) := rfl

theorem except_pure {ε α : Type} (a : α) : (pure a : Except ε α) = Except.ok a := rfl

theorem dict_rows_ok (fns : List String) (data : List Obs)
    (h : ∀ d ∈ data, (d.all fun kv => fns.contains kv.1) = true) :
    dict_rows fns data = .ok (data.map fun d => fns.map (getD d)) := by
  induction data with
  | nil => rfl
  | cons d rest ih =>
    have hd := h d (by simp)
    have hrest : ∀ x ∈ rest, (x.all fun kv => fns.contains kv.1) = true :=
      fun x hx => h x (by simp [hx])
    simp only [dict_rows, dict_row, ih hrest, except_bind_ok]
    rw [if_pos hd]
    rfl

theorem write_result_none (fields : List String) (data : List Obs)
    (h : ∀ d ∈ data, (d.all fun kv => ("timestamp" :: fields).contains kv.1) = true) :
    write_result fields none data =
      .ok (("timestamp" :: fields) ::
        data.map fun d => ("timestamp" :: fields).map (getD d)) := by
  simp [write_result, dict_rows_ok _ _ h, except_bind_ok]

theorem write_result_some (fields : List String) (c : List (List String))
    (data : List Obs)
    (h : ∀ d ∈ data, (d.all fun kv => ("timestamp" :: fields).contains kv.1) = true) :
    write_result fields (some c) data =
      .ok (c ++ data.map fun d => ("timestamp" :: fields).map (getD d)) := by
  simp [write_result, dict_rows_ok _ _ h, except_bind_ok]

theorem write_all_from_some (fields : List String) (batches : List (List Obs))
    (c : List (List String))
    (h : ∀ b ∈ batches, ∀ d ∈ b,
      (d.all fun kv => ("timestamp" :: fields).contains kv.1) = true) :
    batches.foldlM (fun sink batch => (write_result fields sink batch).map some)
        (some c) =
      .ok (some (c ++ batches.flatten.map fun d => ("timestamp" :: fields).map (getD d))) := by
  induction batches generalizing c with
  | nil => simp [except_pure]
  | cons b bs ih =>
    have hb := h b (by simp)
    have hbs : ∀ x ∈ bs, ∀ d ∈ x,
        (d.all fun kv => ("timestamp" :: fields).contains kv.1) = true :=
      fun x hx => h x (by simp [hx])
    rw [List.foldlM_cons, write_result_some fields c b hb]
    simp only [except_map_ok, except_bind_ok]
    rw [ih _ hbs]
    simp [List.append_assoc]

end BitcoinMonitor

namespace BitcoinMonitor

/-- C7: for the simple-append sink and every non-empty sequence of write
calls whose observations carry only declared fields, the resulting file is
exactly the header line `["timestamp", ...fields]` followed by one data line
per observation in write order (so the header appears exactly once, as the
first line, regardless of the number of writes), and re-reading any row and
declared field from the file reproduces the written value. -/
theorem write_result_roundtrip (fields : List String) (batches : List (List Obs))
    (hne : batches ≠ [])
    (hconf : ∀ b ∈ batches, ∀ d ∈ b,
      (d.all fun kv => ("timestamp" :: fields).contains kv.1) = true) :
    write_all fields batches = .ok (some (sink_file_spec fields batches)) ∧
    (∀ i, ∀ f ∈ ("timestamp" :: fields), i < batches.flatten.length →
      read_cell (sink_file_spec fields batches) i f
        = getD (batches.flatten.getD i []) f) := by
  constructor
  · match batches, hne with
    | b :: bs, _ =>
      have hb := hconf b (by simp)
      have hbs : ∀ x ∈ bs, ∀ d ∈ x,
          (d.all fun kv => ("timestamp" :: fields).contains kv.1) = true :=
        fun x hx => hconf x (by simp [hx])
      unfold write_all
      rw [List.foldlM_cons, write_result_none fields b hb]
      simp only [except_map_ok, except_bind_ok]
      rw [write_all_from_some fields bs _ hbs]
      simp [sink_file_spec]
  · intro i f hf hi
    have hrow : (batches.flatten.map fun d =>
        ("timestamp" :: fields).map (getD d))[i]? =
        some (("timestamp" :: fields).map (getD (batches.flatten.getD i []))) := by
      rw [List.getElem?_map]
      rw [List.getElem?_eq_getElem hi]
      simp [List.getD_eq_getElem?_getD, List.getElem?_eq_getElem hi]
    simp only [sink_file_spec, read_cell]
    rw [hrow]
    simp only [Option.getD_some]
    rw [List.getElem?_map, List.getElem?_indexOf hf]
    rfl

/-- Witness for C7: two writes (one row each) with schema `["dummy"]`; the
file ends up as a single header line plus the two rows, and each written
value reads back. -/
theorem write_result_roundtrip_witness :
    (write_all ["dummy"] [[[("timestamp", "t1"), ("dummy", "7")]], [[("timestamp", "t2")]]] =
      .ok (some (sink_file_spec ["dummy"]
        [[[("timestamp", "t1"), ("dummy", "7")]], [[("timestamp", "t2")]]]))) ∧
    (∀ i, ∀ f ∈ ("timestamp" :: ["dummy"]),
      i < ([[[("timestamp", "t1"), ("dummy", "7")]],
            [[("timestamp", "t2")]]] : List (List Obs)).flatten.length →
      read_cell (sink_file_spec ["dummy"]
          [[[("timestamp", "t1"), ("dummy", "7")]], [[("timestamp", "t2")]]]) i f
        = getD (([[[("timestamp", "t1"), ("dummy", "7")]],
            [[("timestamp", "t2")]]] : List (List Obs)).flatten.getD i []) f) :=
  write_result_roundtrip ["dummy"]
    [[[("timestamp", "t1"), ("dummy", "7")]], [[("timestamp", "t2")]]]
    (by simp) (by decide)

end BitcoinMonitor

namespace BitcoinMonitor

/-! ## Archive-mode sink (`GetRawAddrman.write_result`, `GetNodeAddresses.write_result`)

```python
timestamp_str = data[0]["timestamp"]
file = Path(f"{self.results_path}/{self.CALL_NAME}/{timestamp_str}.csv.xz")

if file.exists():
    log.error("output file %s already exists. Skipping.", file)
    return

file.parent.mkdir(parents=True, exist_ok=True)
with lzma.open(file, "wt") as f:
    csv_writer = csv.DictWriter(f, fieldnames=["timestamp"] + self.CSV_FIELDS)
    csv_writer.writeheader()
    csv_writer.writerows(data)
```

The per-collector directory is modelled as an association list from file
name to file contents. -/

/-- The file system under the collector's output root: file name to CSV
lines. -/
def ArchiveFS : Type := List (String × List (List String))

instance : DecidableEq ArchiveFS := by unfold ArchiveFS; infer_instance

/-- The timestamped file name of one archive-mode write. -/
def archive_name (results_path call_name ts : String) : String :=
  results_path ++ "/" ++ call_name ++ "/" ++ ts ++ ".csv.xz"

/-- The archive-mode `write_result` of `GetRawAddrman`/`GetNodeAddresses`:
`data[0]["timestamp"]` names the file (raising `IndexError` on an empty
list and `KeyError` when the first record lacks `"timestamp"`); if a file of
that name already exists the write is skipped, otherwise a fresh file with
header and all rows is created. -/
def archive_write (results_path call_name : String) (fields : List String)
    (fs : ArchiveFS) (data : List Obs) : Except PyErr ArchiveFS :=
  match data with
  | [] => .error .indexError
  | d :: _ =>
    match d.lookup "timestamp" with
    | none => .error (.keyError "timestamp")
    | some ts =>
      let file := archive_name results_path call_name ts
      if (fs.lookup file).isSome then
        .ok fs
      else do
        let rows ← dict_rows ("timestamp" :: fields) data
        .ok ((file, ("timestamp" :: fields) :: rows) :: fs)

end BitcoinMonitor

namespace BitcoinMonitor

/-- C8: if the archive-mode sink already holds a file with the cycle's exact
timestamped name, the write is a no-op: the file system (and so the existing
file's contents) is returned unchanged. -/
theorem archive_write_idempotent (results_path call_name : String)
    (fields : List String) (fs : ArchiveFS) (d : Obs) (rest : List Obs) (ts : String)
    (hts : d.lookup "timestamp" = some ts)
    (hexists : (fs.lookup (archive_name results_path call_name ts)).isSome = true) :
    archive_write results_path call_name fields fs (d :: rest) = .ok fs := by
  simp [archive_write, hts, hexists]

/-- Witness for C8: a second write with timestamp `t1` against a file system
already holding `t1`'s file leaves it untouched. -/
theorem archive_write_idempotent_witness :
    archive_write "out" "getrawaddrman" ["address"]
        [(archive_name "out" "getrawaddrman" "t1", [["timestamp", "address"], ["t1", "a"]])]
        [[("timestamp", "t1"), ("address", "b")]] =
      .ok [(archive_name "out" "getrawaddrman" "t1",
        [["timestamp", "address"], ["t1", "a"]])] :=
  archive_write_idempotent "out" "getrawaddrman" ["address"]
    [(archive_name "out" "getrawaddrman" "t1", [["timestamp", "address"], ["t1", "a"]])]
    [("timestamp", "t1"), ("address", "b")] [] "t1" (by decide) (by decide)

/-- C10: the archive-mode write is partial on the empty observation list —
`data[0]` raises `IndexError` before any file-existence check, so an
acquisition cycle that fans out into zero rows cannot be written (it is not
a no-op); the operation can only succeed when the list is non-empty. -/
theorem archive_write_empty_raises (results_path call_name : String)
    (fields : List String) (fs : ArchiveFS) :
    archive_write results_path call_name fields fs [] = .error .indexError := by
  rfl

end BitcoinMonitor

namespace BitcoinMonitor

/-! ## Kernel-probe peer aggregation (`net.py`)

```python
class Message:
    def __init__(self, msg_type, size, inbound): ...

class Peer:
    def __init__(self, id, address, connection_type):
        self.id = id
        self.address = address
        self.connection_type = connection_type
        self.last_messages = list()

    def add_message(self, message):
        self.last_messages.append(message)
        if len(self.last_messages) > 25:
            self.last_messages.pop(0)
        if message.inbound:
            self.total_inbound_bytes += message.size
            self.total_inbound_msgs += 1
        else:
            self.total_outbound_bytes += message.size
            self.total_outbound_msgs += 1
```

The four counters are class-level `0` ints; since ints are immutable,
`+=` rebinds them per instance, so each peer's counters start at `0`. -/

/-- A P2P network message (`Message` in `net.py`). -/
structure Message where
  msg_type : String
  size : Nat
  inbound : Bool
deriving DecidableEq, Repr

/-- A P2P network peer (`Peer` in `net.py`). -/
structure Peer where
  id : Nat
  address : String
  connection_type : String
  last_messages : List Message
  total_inbound_msgs : Nat
  total_inbound_bytes : Nat
  total_outbound_msgs : Nat
  total_outbound_bytes : Nat
deriving DecidableEq, Repr

/-- Constructor `Peer.__init__`. -/
def Peer.init (id : Nat) (address connection_type : String) : Peer :=
  ⟨id, address, connection_type, [], 0, 0, 0, 0⟩

/-- Method `Peer.add_message`: append to the recent-message ring, evict the oldest
entry once the length exceeds 25, and bump the direction's counters. -/
def Peer.add_message (p : Peer) (m : Message) : Peer :=
  let lm := p.last_messages ++ [m]
  let lm := if lm.length > 25 then lm.drop 1 else lm
  if m.inbound then
    { p with last_messages := lm,
             total_inbound_bytes := p.total_inbound_bytes + m.size,
             total_inbound_msgs := p.total_inbound_msgs + 1 }
  else
    { p with last_messages := lm,
             total_outbound_bytes := p.total_outbound_bytes + m.size,
             total_outbound_msgs := p.total_outbound_msgs + 1 }

/-- One structured trace event (the BPF `p2p_message` struct, decoded). -/
structure P2PEvent where
  peer_id : Nat
  peer_addr : String
  peer_conn_type : String
  msg_type : String
  msg_size : Nat
deriving DecidableEq, Repr

/-- The collector's peer dict, `peer id → record`. -/
def PeersMap : Type := Nat → Option Peer

/-- Dict store `peers[k] = v`. -/
def peersSet (m : PeersMap) (k : Nat) (v : Peer) : PeersMap :=
  fun n => if n = k then some v else m n

/-- Handlers `handle_inbound`/`handle_outbound` in `Net.run` (they differ only in the
`inbound` flag): if the event's peer id is not in the dict, store a fresh
`Peer` built from the event's address and connection type; then add the
event's message to the record stored under that id. -/
def handle_event (inbound : Bool) (peers : PeersMap) (e : P2PEvent) : PeersMap :=
  let peers' :=
    match peers e.peer_id with
    | some _ => peers
    | none => peersSet peers e.peer_id (Peer.init e.peer_id e.peer_addr e.peer_conn_type)
  match peers' e.peer_id with
  | some p => peersSet peers' e.peer_id (p.add_message ⟨e.msg_type, e.msg_size, inbound⟩)
  | none => peers'

/-- A delivered event stream: each entry is the event plus the direction of
the perf buffer it arrived on (`true` = `inbound_messages`). -/
def handle_events (peers : PeersMap) (evs : List (P2PEvent × Bool)) : PeersMap :=
  evs.foldl (fun m ev => handle_event ev.2 m ev.1) peers

/-- The `Message` a handler builds from one delivered event. -/
def msgOfEvent (ev : P2PEvent × Bool) : Message := ⟨ev.1.msg_type, ev.1.msg_size, ev.2⟩

/-- The last `n` elements of a list, in order. -/
def lastN {α : Type} (n : Nat) (l : List α) : List α := l.drop (l.length - n)

theorem peersSet_self (m : PeersMap) (k : Nat) (v : Peer) : peersSet m k v k = some v := by
  simp [peersSet]

theorem peersSet_peersSet (m : PeersMap) (k : Nat) (v w : Peer) :
    peersSet (peersSet m k v) k w = peersSet m k w := by
  funext n
  by_cases h : n = k <;> simp [peersSet, h]

theorem lastN_nil {α : Type} (n : Nat) : lastN n ([] : List α) = [] := by
  simp [lastN]

theorem lastN_step {α : Type} (acc : List α) (m : α) :
    (if (lastN 25 acc ++ [m]).length > 25 then (lastN 25 acc ++ [m]).drop 1
     else lastN 25 acc ++ [m]) = lastN 25 (acc ++ [m]) := by
  have hl : (acc ++ [m]).length = acc.length + 1 := by simp
  unfold lastN
  by_cases h : acc.length ≤ 25
  · have h0 : acc.length - 25 = 0 := by omega
    rw [h0, List.drop_zero]
    by_cases h1 : acc.length = 25
    · rw [if_pos (by rw [hl]; omega)]
      have h2 : (acc ++ [m]).length - 25 = 1 := by rw [hl]; omega
      rw [h2]
    · rw [if_neg (by rw [hl]; omega)]
      have h2 : (acc ++ [m]).length - 25 = 0 := by rw [hl]; omega
      rw [h2, List.drop_zero]
  · push_neg at h
    have hlen : (acc.drop (acc.length - 25)).length = 25 := by
      rw [List.length_drop]; omega
    rw [if_pos (by rw [List.length_append, hlen]; simp)]
    rw [List.drop_append_of_le_length (by rw [hlen]; omega)]
    rw [List.drop_drop]
    rw [List.drop_append_of_le_length (by rw [hl]; omega)]
    have h3 : acc.length - 25 + 1 = (acc ++ [m]).length - 25 := by rw [hl]; omega
    rw [h3]

theorem add_message_last (p : Peer) (m : Message) :
    (p.add_message m).last_messages =
      (if (p.last_messages ++ [m]).length > 25 then (p.last_messages ++ [m]).drop 1
       else p.last_messages ++ [m]) := by
  rcases m with ⟨t, s, i⟩
  cases i <;> simp [Peer.add_message]

theorem add_message_counts (p : Peer) (m : Message) :
    (p.add_message m).total_inbound_msgs
        = p.total_inbound_msgs + (if m.inbound then 1 else 0) ∧
    (p.add_message m).total_outbound_msgs
        = p.total_outbound_msgs + (if m.inbound then 0 else 1) ∧
    (p.add_message m).total_inbound_bytes
        = p.total_inbound_bytes + (if m.inbound then m.size else 0) ∧
    (p.add_message m).total_outbound_bytes
        = p.total_outbound_bytes + (if m.inbound then 0 else m.size) := by
  rcases m with ⟨t, s, i⟩
  cases i <;> simp [Peer.add_message]

theorem fold_add_message_ring (ms : List Message) (p : Peer) (acc : List Message)
    (hp : p.last_messages = lastN 25 acc) :
    (ms.foldl Peer.add_message p).last_messages = lastN 25 (acc ++ ms) := by
  induction ms generalizing p acc with
  | nil => simpa using hp
  | cons m rest ih =>
    rw [List.foldl_cons]
    have hstep : (p.add_message m).last_messages = lastN 25 (acc ++ [m]) := by
      rw [add_message_last, hp, lastN_step]
    have := ih (p.add_message m) (acc ++ [m]) hstep
    simpa [List.append_assoc] using this

theorem fold_add_message_counts (ms : List Message) (p : Peer) :
    ((ms.foldl Peer.add_message p).total_inbound_msgs
        = p.total_inbound_msgs + (ms.filter (fun m => m.inbound)).length) ∧
    ((ms.foldl Peer.add_message p).total_outbound_msgs
        = p.total_outbound_msgs + (ms.filter (fun m => !m.inbound)).length) ∧
    ((ms.foldl Peer.add_message p).total_inbound_bytes
        = p.total_inbound_bytes + ((ms.filter (fun m => m.inbound)).map Message.size).sum) ∧
    ((ms.foldl Peer.add_message p).total_outbound_bytes
        = p.total_outbound_bytes + ((ms.filter (fun m => !m.inbound)).map Message.size).sum) := by
  induction ms generalizing p with
  | nil => simp
  | cons m rest ih =>
    rw [List.foldl_cons]
    obtain ⟨ih1, ih2, ih3, ih4⟩ := ih (p.add_message m)
    obtain ⟨hc1, hc2, hc3, hc4⟩ := add_message_counts p m
    rcases m with ⟨t, s, i⟩
    cases i <;>
      simp_all [List.filter_cons] <;> omega

theorem handle_events_known (pid : Nat) (evs : List (P2PEvent × Bool)) :
    ∀ (peers : PeersMap) (p₀ : Peer), peers pid = some p₀ →
      (∀ ev ∈ evs, ev.1.peer_id = pid) →
      handle_events peers evs pid
        = some ((evs.map msgOfEvent).foldl Peer.add_message p₀) := by
  induction evs with
  | nil =>
    intro peers p₀ hsome _
    simpa [handle_events] using hsome
  | cons ev rest ih =>
    intro peers p₀ hsome hpid
    have hid : ev.1.peer_id = pid := hpid ev (by simp)
    have hrest : ∀ e ∈ rest, e.1.peer_id = pid := fun e he => hpid e (by simp [he])
    have hhandle : handle_event ev.2 peers ev.1
        = peersSet peers pid (p₀.add_message (msgOfEvent ev)) := by
      unfold handle_event
      simp only [hid, hsome]
      rfl
    have hlook : (peersSet peers pid (p₀.add_message (msgOfEvent ev))) pid
        = some (p₀.add_message (msgOfEvent ev)) := peersSet_self _ _ _
    calc handle_events peers (ev :: rest) pid
        = handle_events (peersSet peers pid (p₀.add_message (msgOfEvent ev))) rest pid := by
          simp [handle_events, hhandle]
      _ = some ((rest.map msgOfEvent).foldl Peer.add_message
            (p₀.add_message (msgOfEvent ev))) := ih _ _ hlook hrest
      _ = some (((ev :: rest).map msgOfEvent).foldl Peer.add_message p₀) := by
          simp

end BitcoinMonitor

namespace BitcoinMonitor

/-- C6: delivering any non-empty stream of events for one previously-unseen
peer id (each tagged with its direction) yields a `PeerRecord` whose
inbound/outbound message counts are the numbers of inbound/outbound events,
whose byte totals are the sums of the corresponding message sizes, and whose
recent-message ring is exactly the last `min(N+M, 25)` messages in arrival
order. -/
theorem peer_aggregation (peers : PeersMap) (pid : Nat)
    (evs : List (P2PEvent × Bool))
    (hunseen : peers pid = none)
    (hpid : ∀ ev ∈ evs, ev.1.peer_id = pid)
    (hne : evs ≠ []) :
    ∃ p : Peer, handle_events peers evs pid = some p ∧
      p.total_inbound_msgs = (evs.filter (fun ev => ev.2)).length ∧
      p.total_outbound_msgs = (evs.filter (fun ev => !ev.2)).length ∧
      p.total_inbound_bytes
        = ((evs.filter (fun ev => ev.2)).map (fun ev => ev.1.msg_size)).sum ∧
      p.total_outbound_bytes
        = ((evs.filter (fun ev => !ev.2)).map (fun ev => ev.1.msg_size)).sum ∧
      p.last_messages = lastN 25 (evs.map msgOfEvent) ∧
      p.last_messages.length
        = min ((evs.filter (fun ev => ev.2)).length
            + (evs.filter (fun ev => !ev.2)).length) 25 := by
  match evs, hne with
  | ev :: rest, _ =>
    have hid : ev.1.peer_id = pid := hpid ev (by simp)
    have hrest : ∀ e ∈ rest, e.1.peer_id = pid := fun e he => hpid e (by simp [he])
    set p₁ := (Peer.init pid ev.1.peer_addr ev.1.peer_conn_type).add_message (msgOfEvent ev)
      with hp₁
    have hhandle : handle_event ev.2 peers ev.1 = peersSet peers pid p₁ := by
      unfold handle_event
      simp only [hid, hunseen, peersSet_self]
      rw [peersSet_peersSet]
      rfl
    have hfinal : handle_events peers (ev :: rest) pid
        = some ((rest.map msgOfEvent).foldl Peer.add_message p₁) := by
      have : handle_events peers (ev :: rest) pid
          = handle_events (peersSet peers pid p₁) rest pid := by
        simp [handle_events, hhandle]
      rw [this]
      exact handle_events_known pid rest _ _ (peersSet_self _ _ _) hrest
    refine ⟨_, hfinal, ?_⟩
    have hfold : (rest.map msgOfEvent).foldl Peer.add_message p₁
        = (((ev :: rest)).map msgOfEvent).foldl Peer.add_message
            (Peer.init pid ev.1.peer_addr ev.1.peer_conn_type) := by
      simp [hp₁]
    rw [hfold]
    set q := (((ev :: rest)).map msgOfEvent).foldl Peer.add_message
        (Peer.init pid ev.1.peer_addr ev.1.peer_conn_type) with hq
    obtain ⟨hc1, hc2, hc3, hc4⟩ :=
      fold_add_message_counts ((ev :: rest).map msgOfEvent)
        (Peer.init pid ev.1.peer_addr ev.1.peer_conn_type)
    have hring : q.last_messages = lastN 25 ((ev :: rest).map msgOfEvent) := by
      rw [hq]
      have := fold_add_message_ring ((ev :: rest).map msgOfEvent)
        (Peer.init pid ev.1.peer_addr ev.1.peer_conn_type) [] rfl
      simpa using this
    have hfiltin : ((ev :: rest).map msgOfEvent).filter (fun m => m.inbound)
        = ((ev :: rest).filter (fun e => e.2)).map msgOfEvent := by
      rw [List.filter_map]
      rfl
    have hfiltout : ((ev :: rest).map msgOfEvent).filter (fun m => !m.inbound)
        = ((ev :: rest).filter (fun e => !e.2)).map msgOfEvent := by
      rw [List.filter_map]
      rfl
    refine ⟨?_, ?_, ?_, ?_, hring, ?_⟩
    · rw [← hq] at hc1
      rw [hc1, hfiltin]
      simp [Peer.init]
    · rw [← hq] at hc2
      rw [hc2, hfiltout]
      simp [Peer.init]
    · rw [← hq] at hc3
      rw [hc3, hfiltin]
      have hcomp : (Message.size ∘ msgOfEvent)
          = fun (e : P2PEvent × Bool) => e.1.msg_size := rfl
      simp [Peer.init, List.map_map, hcomp]
    · rw [← hq] at hc4
      rw [hc4, hfiltout]
      have hcomp : (Message.size ∘ msgOfEvent)
          = fun (e : P2PEvent × Bool) => e.1.msg_size := rfl
      simp [Peer.init, List.map_map, hcomp]
    · rw [hring]
      unfold lastN
      rw [List.length_drop]
      have hpart : ((ev :: rest).filter (fun e => e.2)).length
          + ((ev :: rest).filter (fun e => !e.2)).length = (ev :: rest).length := by
        induction (ev :: rest) with
        | nil => rfl
        | cons a t iht =>
          by_cases ha : a.2 <;> simp [List.filter_cons, ha] <;> omega
      rw [List.length_map]
      omega

/-- Witness for C6: three events (two inbound, one outbound) for the unseen
peer id 7 against an empty dict. -/
theorem peer_aggregation_witness :
    ∃ p : Peer,
      handle_events (fun _ => none)
          [(⟨7, "addr", "outbound-full-relay", "ping", 10⟩, true),
           (⟨7, "addr", "outbound-full-relay", "pong", 20⟩, false),
           (⟨7, "addr", "outbound-full-relay", "inv", 5⟩, true)] 7 = some p ∧
      p.total_inbound_msgs = (([(⟨7, "addr", "outbound-full-relay", "ping", 10⟩, true),
           (⟨7, "addr", "outbound-full-relay", "pong", 20⟩, false),
           (⟨7, "addr", "outbound-full-relay", "inv", 5⟩, true)] :
              List (P2PEvent × Bool)).filter (fun ev => ev.2)).length ∧
      p.total_outbound_msgs = (([(⟨7, "addr", "outbound-full-relay", "ping", 10⟩, true),
           (⟨7, "addr", "outbound-full-relay", "pong", 20⟩, false),
           (⟨7, "addr", "outbound-full-relay", "inv", 5⟩, true)] :
              List (P2PEvent × Bool)).filter (fun ev => !ev.2)).length ∧
      p.total_inbound_bytes
        = ((([(⟨7, "addr", "outbound-full-relay", "ping", 10⟩, true),
           (⟨7, "addr", "outbound-full-relay", "pong", 20⟩, false),
           (⟨7, "addr", "outbound-full-relay", "inv", 5⟩, true)] :
              List (P2PEvent × Bool)).filter (fun ev => ev.2)).map
                (fun ev => ev.1.msg_size)).sum ∧
      p.total_outbound_bytes
        = ((([(⟨7, "addr", "outbound-full-relay", "ping", 10⟩, true),
           (⟨7, "addr", "outbound-full-relay", "pong", 20⟩, false),
           (⟨7, "addr", "outbound-full-relay", "inv", 5⟩, true)] :
              List (P2PEvent × Bool)).filter (fun ev => !ev.2)).map
                (fun ev => ev.1.msg_size)).sum ∧
      p.last_messages = lastN 25 (([(⟨7, "addr", "outbound-full-relay", "ping", 10⟩, true),
           (⟨7, "addr", "outbound-full-relay", "pong", 20⟩, false),
           (⟨7, "addr", "outbound-full-relay", "inv", 5⟩, true)] :
              List (P2PEvent × Bool)).map msgOfEvent) ∧
      p.last_messages.length
        = min ((([(⟨7, "addr", "outbound-full-relay", "ping", 10⟩, true),
           (⟨7, "addr", "outbound-full-relay", "pong", 20⟩, false),
           (⟨7, "addr", "outbound-full-relay", "inv", 5⟩, true)] :
              List (P2PEvent × Bool)).filter (fun ev => ev.2)).length
            + (([(⟨7, "addr", "outbound-full-relay", "ping", 10⟩, true),
           (⟨7, "addr", "outbound-full-relay", "pong", 20⟩, false),
           (⟨7, "addr", "outbound-full-relay", "inv", 5⟩, true)] :
              List (P2PEvent × Bool)).filter (fun ev => !ev.2)).length) 25 :=
  peer_aggregation (fun _ => none) 7
    [(⟨7, "addr", "outbound-full-relay", "ping", 10⟩, true),
     (⟨7, "addr", "outbound-full-relay", "pong", 20⟩, false),
     (⟨7, "addr", "outbound-full-relay", "inv", 5⟩, true)]
    rfl (by decide) (by decide)

end BitcoinMonitor

namespace BitcoinMonitor

/-! ## The `Net` class's `peers` dict is a class attribute (`net.py`)

```python
@dataclass
class Net:
    results_path: Path
    peers = {}
    FREQUENCY: ClassVar[int] = 5
    ...
```

`peers = {}` in the class body has no type annotation, so it is *not* a
dataclass field: it is a single class attribute — one dict object created
once, when the class is defined.  The handlers in `Net.run` read
`self.peers`; since no instance attribute named `peers` is ever assigned,
Python's attribute lookup falls back to this class attribute, and
`self.peers[peer.id] = peer` / `add_message` mutate that one dict in place.
(`Traffic` in `traffic.py` has the same shape with `peers = {}` and
`messages = []`.)  The class attribute is therefore modelled as state of the
class, not of the instance. -/

/-- The mutable state attached to the `Net` *class*: the one `peers` dict. -/
structure NetClassState where
  peers : PeersMap

/-- A `Net` instance: its only dataclass field (and only per-instance state)
is `results_path`. -/
structure Net where
  results_path : String

/-- Attribute lookup `self.peers` on an instance: no instance attribute of
that name exists, so it resolves to the class attribute. -/
def Net.peersAttr (cls : NetClassState) (_self : Net) : PeersMap := cls.peers

/-- Delivering one traced message event to one instance's handler: the
handler mutates the dict denoted by `self.peers`, i.e. the class-level
dict. -/
def Net.deliver (cls : NetClassState) (self : Net) (inbound : Bool)
    (e : P2PEvent) : NetClassState :=
  ⟨handle_event inbound (Net.peersAttr cls self) e⟩

end BitcoinMonitor

namespace BitcoinMonitor

/-- C9 evaluated at the failing configuration: two distinct `Net` instances
start with the class's empty `peers` dict; delivering a single inbound event
(peer id 0) to the *first* instance makes peer 0 appear in the *second*
instance's `peers` as well, because `peers = {}` is a class attribute shared
by all instances — contradicting the claim that the two maps are disjoint
state and that the other instance's map stays unchanged. -/
theorem net_instances_share_peers :
    Net.peersAttr ⟨fun _ => none⟩ ⟨"/var/lib/b"⟩ 0 = none ∧
    Net.peersAttr
        (Net.deliver ⟨fun _ => none⟩ ⟨"/var/lib/a"⟩ true
          ⟨0, "1.2.3.4:8333", "inbound", "ping", 8⟩)
        ⟨"/var/lib/b"⟩ 0 ≠ none := by
  constructor
  · rfl
  · intro hcontra
    have : Net.peersAttr
        (Net.deliver ⟨fun _ => none⟩ ⟨"/var/lib/a"⟩ true
          ⟨0, "1.2.3.4:8333", "inbound", "ping", 8⟩)
        ⟨"/var/lib/b"⟩ 0
        = some ((Peer.init 0 "1.2.3.4:8333" "inbound").add_message
            ⟨"ping", 8, true⟩) := by
      unfold Net.deliver Net.peersAttr handle_event
      simp [peersSet_self, peersSet_peersSet]
    rw [this] at hcontra
    exact Option.noConfusion hcontra

end BitcoinMonitor

namespace BitcoinMonitor

/-! ## systemd IP-accounting collector (`ip_accounting.py`)

```python
while True:
    call_time = datetime.datetime.now(tz).strftime("%Y-%m-%dT%H:%M:%SZ")
    try:
        call_result = await self.systemd_call()
        data = self.format_results(call_time, call_result)
        if not data:
            self.log.warning("no data returned by format_results")
            break
        self.write_result(data)
    except ConnectionError as e:
        self.log.error(e)
    await self.reschedule()
```

`systemd_call` parses `systemctl show`'s `key=value` lines into a dict and
returns the *empty dict* (after printing a message) when the dict's
`IPAccounting` entry is missing or not `"yes"`; `format_results` always wraps
its input in a one-element list (timestamp plus whichever counters are
present), so `if not data: break` can never fire, and `write_result` is the
same simple-append writer as in `base.py`. -/

/-- The class constant `IPAccounting.CSV_FIELDS`. -/
def IP_CSV_FIELDS : List String :=
  ["IPIngressPackets", "IPEgressPackets", "IPIngressBytes", "IPEgressBytes"]

/-- Python `line.split("=", 1)` guarded by `"=" in line`: the text before the first
`=` and everything after it, or `none` when the line has no `=`. -/
def split_key : List Char → Option (List Char × List Char)
  | [] => none
  | c :: rest =>
    if c = '=' then some ([], rest)
    else
      match split_key rest with
      | some (k, v) => some (c :: k, v)
      | none => none

/-- The split of `split_key` lifted to strings. -/
def split_first_eq (l : String) : Option (String × String) :=
  match split_key l.toList with
  | some (k, v) => some (String.mk k, String.mk v)
  | none => none

/-- Python dict insertion `data[key] = value`: overwrite in place when the
key exists, else append (insertion order preserved). -/
def py_dict_insert (d : List (String × String)) (k v : String) :
    List (String × String) :=
  if d.any (fun kv => kv.1 = k) then
    d.map (fun kv => if kv.1 = k then (k, v) else kv)
  else d ++ [(k, v)]

/-- The `IPAccounting.systemd_call` acquisition applied to the (stripped) output lines of
`systemctl show`: parse the `key=value` lines into a dict; if the dict's
`IPAccounting` entry, defaulted to `"no"`, is not `"yes"`, print a message
and return the empty dict — no exception is raised. -/
def systemd_call (lines : List String) : List (String × String) :=
  let data := lines.foldl (fun d l =>
    match split_first_eq l with
    | some (k, v) => py_dict_insert d k v
    | none => d) []
  if ((data.lookup "IPAccounting").getD "no") ≠ "yes" then [] else data

/-- Method `IPAccounting.format_results`: one record — the timestamp merged with
whichever of the four accounting counters are present in `data`. -/
def ip_format_results (timestamp : String) (data : List (String × String)) :
    List Obs :=
  [("timestamp", timestamp) :: data.filter (fun kv => IP_CSV_FIELDS.contains kv.1)]

/-- Whether the loop's iteration falls through to `await self.reschedule()`
(and thus a further iteration) or leaves the loop via `break`. -/
inductive CycleAction where
  | proceed
  | terminate
deriving DecidableEq, Repr

/-- One iteration of `IPAccounting.run`'s loop body: acquire via
`systemd_call`, format, `break` when the formatted list is empty, otherwise
append to the sink and carry on to rescheduling. -/
def ip_run_cycle (t : String) (lines : List String)
    (sink : Option (List (List String))) :
    Except PyErr (Option (List (List String)) × CycleAction) := do
  let call_result := systemd_call lines
  let data := ip_format_results t call_result
  if data = [] then
    .ok (sink, .terminate)
  else do
    let content ← write_result IP_CSV_FIELDS sink data
    .ok (some content, .proceed)

end BitcoinMonitor

namespace BitcoinMonitor

/-- C1 evaluated at the failing input: one cycle of the accounting collector
against a service whose `systemctl show` output has `IPAccounting=no`
raises nothing (`.ok`), *writes* a row (the timestamp with all four counter
cells empty) to a fresh sink file, and the loop proceeds to the next cycle
instead of terminating — against the claim that the cycle raises a fatal
`ConfigurationError`, terminates the loop, and writes no output row
(`IPAccounting.systemd_call` merely returns `{}`, `format_results` wraps it
into a non-empty one-record list, so `if not data: break` never fires). -/
theorem ip_accounting_disabled_writes_row :
    ip_run_cycle "2026-01-01T00:00:00Z"
        ["IPIngressBytes=123", "IPIngressPackets=4", "IPEgressBytes=55",
         "IPEgressPackets=6", "IPAccounting=no"] none =
      .ok (some [["timestamp", "IPIngressPackets", "IPEgressPackets",
                  "IPIngressBytes", "IPEgressBytes"],
                 ["2026-01-01T00:00:00Z", "", "", "", ""]],
           CycleAction.proceed) := by
  rfl

end BitcoinMonitor
